import Mathlib

/-!
Verification development for the fizmix repository.

The repository contains two Cloudflare Pages request handlers:
  * `src/functions/api/result.js` — the selectable variant: a `fit` routine
    (least squares for y = b/x² + a via the substitution u = 1/x²), a table
    `TRANSFORMS` of fifteen named monotone maps applied to R², and a POST
    handler `onRequestPost`.
  * `src/unnamed/part_000` — the fixed variant: a textually identical `fit`,
    a single hardcoded `transform` (neg-log-complement), and its handler.

Embedding conventions:
  * JS numbers are modelled as real numbers (exact arithmetic).
  * `parseFloat` results are modelled as `Option ℝ` (`none` = NaN, i.e. the
    entry failed to parse); a row is a pair of such parse results.
  * The JS arrays `x`, `y` are `List ℝ`; the loop `for i in 0..n-1` over
    `u[i]`, `y[i]` is a `Finset.range` sum over `List.getD i 0` (the handler
    only ever calls `fit` with equal-length arrays, so the default is never
    exercised on the paths the claims quantify over).
  * `null` (degenerate fit) is `Option.none`; HTTP responses are the
    inductive `Response` (status code and error message, or the numeric
    `mainResult`).
  * `Number(v.toFixed(6))` is modelled as `round6` (round half up at the
    sixth decimal).
  * The property read `TRANSFORMS[transformKey]` is modelled as a
    prototype-chain lookup (`PropLookup`): an own entry of the object
    literal, a function-valued property inherited from `Object.prototype`
    (e.g. `toString`), or a non-function result (`undefined`, or the
    object-valued inherited `__proto__`).
  * The `try/catch` around `forward(r2)` and the
    `typeof mainResult === 'number' && isFinite(mainResult)` passthrough are
    modelled by `applyForward`, `protoCall` and `postprocess`. Number
    arithmetic stays exact-real, so every numeric transform output is finite
    in the model; IEEE overflow to Infinity (e.g. `Math.exp(1/(1-r2))` for
    r2 just below 0.999) is outside this embedding.
-/

noncomputable section

/-- A JavaScript value as it can reach the response path: a number primitive
(always finite in the exact-real model), a boolean, a string, or a Number
wrapper object (which `JSON.stringify` serializes back to its number). -/
inductive JsValue where
  | num : ℝ → JsValue
  | bool : Bool → JsValue
  | str : String → JsValue
  | wrappedNum : ℝ → JsValue

/-- An HTTP response of either handler: an error with a status code and a
message, a 200 reply carrying the rounded numeric mainResult, or a 200 reply
whose non-numeric mainResult was passed through unrounded. -/
inductive Response where
  | error : ℕ → String → Response
  | ok : ℝ → Response
  | okRaw : JsValue → Response

/-- One input row after `parseFloat` of its two entries: `none` models NaN
(the entry failed to parse as a number). -/
abbrev Row := Option ℝ × Option ℝ

/-- Row filtering shared by both handlers: a row survives iff both entries
parsed and the x value is strictly positive
(JS: `if (!isNaN(xi) && !isNaN(yi) && xi > 0)`). -/
def keepRow (row : Row) : Option (ℝ × ℝ) :=
  match row with
  | (some xi, some yi) => if 0 < xi then some (xi, yi) else none
  | _ => none

/-- The surviving (x, y) pairs, in order. -/
def keptRows (rows : List Row) : List (ℝ × ℝ) :=
  rows.filterMap keepRow

/-- The `x` array built by the filtering loop. -/
def xsOf (rows : List Row) : List ℝ :=
  (keptRows rows).map Prod.fst

/-- The `y` array built by the filtering loop. -/
def ysOf (rows : List Row) : List ℝ :=
  (keptRows rows).map Prod.snd

/-- Output post-processing `Number(mainResult.toFixed(6))`: round half up at
the sixth decimal place. -/
def round6 (v : ℝ) : ℝ :=
  ((round (v * 1000000) : ℤ) : ℝ) / 1000000

/-! ### The fit routine

The two source files contain textually identical `fit` functions; the shared
intermediate quantities below are named after the JS locals (`sumU`, `sumU2`,
`sumY`, `sumUY`, `det`, `a`, `b`, `ssRes`, `ssTot`), and each variant's `fit`
is stated below in its own namespace from these pieces. -/

/-- `sumU`: Σ u[i] with u[i] = 1/(x[i]*x[i]). -/
def sumU (x : List ℝ) : ℝ :=
  ∑ i in Finset.range x.length, 1 / (x.getD i 0 * x.getD i 0)

/-- `sumU2`: Σ u[i]*u[i]. -/
def sumU2 (x : List ℝ) : ℝ :=
  ∑ i in Finset.range x.length, (1 / (x.getD i 0 * x.getD i 0)) * (1 / (x.getD i 0 * x.getD i 0))

/-- `sumY`: Σ y[i] (the loop bound is `n = x.length`). -/
def sumY (x y : List ℝ) : ℝ :=
  ∑ i in Finset.range x.length, y.getD i 0

/-- `sumUY`: Σ u[i]*y[i]. -/
def sumUY (x y : List ℝ) : ℝ :=
  ∑ i in Finset.range x.length, (1 / (x.getD i 0 * x.getD i 0)) * y.getD i 0

/-- `det = n * sumU2 - sumU * sumU`. -/
def detOf (x : List ℝ) : ℝ :=
  (x.length : ℝ) * sumU2 x - sumU x * sumU x

/-- `a = (sumY * sumU2 - sumU * sumUY) / det`. -/
def aOf (x y : List ℝ) : ℝ :=
  (sumY x y * sumU2 x - sumU x * sumUY x y) / detOf x

/-- `b = (n * sumUY - sumU * sumY) / det`. -/
def bOf (x y : List ℝ) : ℝ :=
  ((x.length : ℝ) * sumUY x y - sumU x * sumY x y) / detOf x

/-- `yPred[i] = b / (x[i]*x[i]) + a`. -/
def yPredAt (a b : ℝ) (x : List ℝ) (i : ℕ) : ℝ :=
  b / (x.getD i 0 * x.getD i 0) + a

/-- `ssRes = Σ (y[i] - yPred[i]) ** 2`. -/
def ssResOf (a b : ℝ) (x y : List ℝ) : ℝ :=
  ∑ i in Finset.range x.length, (y.getD i 0 - yPredAt a b x i) ^ 2

/-- `ssTot = Σ (y[i] - yMean) ** 2` with `yMean = sumY / n`. -/
def ssTotOf (x y : List ℝ) : ℝ :=
  ∑ i in Finset.range x.length, (y.getD i 0 - sumY x y / (x.length : ℝ)) ^ 2

/-- `r2 = ssTot > 0 ? 1 - ssRes / ssTot : 0` at the least-squares `a`, `b`. -/
def r2Of (x y : List ℝ) : ℝ :=
  if 0 < ssTotOf x y then 1 - ssResOf (aOf x y) (bOf x y) x y / ssTotOf x y else 0

namespace Sel

/-- `fit` of `src/functions/api/result.js`: `null` when `|det| < 1e-20`,
otherwise the unclamped R². -/
def fit (x y : List ℝ) : Option ℝ :=
  if |detOf x| < 1e-20 then none else some (r2Of x y)

end Sel

namespace Fixed

/-- `fit` of `src/unnamed/part_000` (textually identical to the selectable
variant's `fit`). -/
def fit (x y : List ℝ) : Option ℝ :=
  if |detOf x| < 1e-20 then none else some (r2Of x y)

/-- `transform` of `src/unnamed/part_000`:
`-Math.log(Math.max(1e-10, 1 - Math.max(0, Math.min(0.9999, r2))))`. -/
def transform (r2 : ℝ) : ℝ :=
  -Real.log (max 1e-10 (1 - max 0 (min 0.9999 r2)))

end Fixed

/-! ### The fifteen transforms of the selectable variant -/

/-- Table entry `1/(1-R²) ★`. -/
def reciprocalComplement (r2 : ℝ) : ℝ :=
  if 0.999 ≤ r2 then 1e10 else 1 / (1 - max 0 (min 0.999 r2))

/-- Table entry `exp(1/(1-R²)) ★`. -/
def expReciprocalComplement (r2 : ℝ) : ℝ :=
  if 0.999 ≤ r2 then 1e100 else Real.exp (1 / (1 - max 0 (min 0.999 r2)))

/-- Table entry `-log(1-R²) ★`. -/
def negLogComplement (r2 : ℝ) : ℝ :=
  -Real.log (max 1e-10 (1 - max 0 (min 0.9999 r2)))

/-- Table entry `1/√(1-R²) ★`. -/
def invSqrtComplement (r2 : ℝ) : ℝ :=
  if 0.999 ≤ r2 then 1e10 else 1 / Real.sqrt (max 1e-10 (1 - max 0 (min 0.999 r2)))

/-- Table entry `tan(π·R²/2) ★`. -/
def tanHalfPi (r2 : ℝ) : ℝ :=
  Real.tan (Real.pi * max 0 (min 0.999 r2) / 2)

/-- Table entry `exp(10·(R²-1)) ★`. -/
def expDecayScaled (r2 : ℝ) : ℝ :=
  Real.exp (10 * (max 0 r2 - 1))

/-- Table entry `(1-R²)⁻³ ★`. -/
def invCubeComplement (r2 : ℝ) : ℝ :=
  if 0.999 ≤ r2 then 1e30 else 1 / (max 1e-10 (1 - max 0 (min 0.999 r2))) ^ 3

/-- Table entry `log(1 + R²)`. -/
def log1p (r2 : ℝ) : ℝ :=
  Real.log (1 + max 0 r2)

/-- Table entry `exp(R²)`. -/
def expClampedLow (r2 : ℝ) : ℝ :=
  Real.exp (max (-10) r2)

/-- Table entry `√(1 + R²)`. -/
def sqrt1p (r2 : ℝ) : ℝ :=
  Real.sqrt (1 + max 0 r2)

/-- Table entry `R²²`: `Math.pow(Math.max(0, r2), 2)`. -/
def squareT (r2 : ℝ) : ℝ :=
  (max 0 r2) ^ 2

/-- Table entry `arctan(R²)×2/π`. -/
def arctanNormalized (r2 : ℝ) : ℝ :=
  Real.arctan (max 0 r2) * 2 / Real.pi

/-- Table entry `R²/(1+R²)`. The JS source appends `|| 0`, which maps a `0`
(or NaN) result to `0`; over exact reals that fallback is the identity, since
the quotient is `0` exactly when the numerator is. -/
def saturatingFrac (r2 : ℝ) : ℝ :=
  max 0 r2 / (1 + max 0 r2)

/-- Table entry `sinh(R²)`. -/
def sinhT (r2 : ℝ) : ℝ :=
  Real.sinh (max 0 r2)

/-- Table entry `exp(-R²)`. -/
def expNegative (r2 : ℝ) : ℝ :=
  Real.exp (-max 0 r2)

/-- The result of the JS property read `TRANSFORMS[transformKey]`: an own
entry of the object literal (one of the fifteen closures); a function that
the lookup finds on `Object.prototype` (property access walks the prototype
chain, so e.g. `TRANSFORMS['toString']` is a function and passes the
`typeof forward !== 'function'` guard); or a non-function value (`undefined`
for keys absent from the whole chain, and the object-valued inherited
`__proto__`), which makes the guard fire. -/
inductive PropLookup where
  | ownFn : (ℝ → ℝ) → PropLookup
  | protoFn : String → PropLookup
  | nonFunction : PropLookup

/-- The `TRANSFORMS` object of the selectable variant, as the property
lookup the handler performs: own entries first, then the prototype chain. -/
def TRANSFORMS (key : String) : PropLookup :=
  match key with
  | "1/(1-R²) ★" => PropLookup.ownFn reciprocalComplement
  | "exp(1/(1-R²)) ★" => PropLookup.ownFn expReciprocalComplement
  | "-log(1-R²) ★" => PropLookup.ownFn negLogComplement
  | "1/√(1-R²) ★" => PropLookup.ownFn invSqrtComplement
  | "tan(π·R²/2) ★" => PropLookup.ownFn tanHalfPi
  | "exp(10·(R²-1)) ★" => PropLookup.ownFn expDecayScaled
  | "(1-R²)⁻³ ★" => PropLookup.ownFn invCubeComplement
  | "log(1 + R²)" => PropLookup.ownFn log1p
  | "exp(R²)" => PropLookup.ownFn expClampedLow
  | "√(1 + R²)" => PropLookup.ownFn sqrt1p
  | "R²²" => PropLookup.ownFn squareT
  | "arctan(R²)×2/π" => PropLookup.ownFn arctanNormalized
  | "R²/(1+R²)" => PropLookup.ownFn saturatingFrac
  | "sinh(R²)" => PropLookup.ownFn sinhT
  | "exp(-R²)" => PropLookup.ownFn expNegative
  | "constructor" => PropLookup.protoFn "constructor"
  | "hasOwnProperty" => PropLookup.protoFn "hasOwnProperty"
  | "isPrototypeOf" => PropLookup.protoFn "isPrototypeOf"
  | "propertyIsEnumerable" => PropLookup.protoFn "propertyIsEnumerable"
  | "toLocaleString" => PropLookup.protoFn "toLocaleString"
  | "toString" => PropLookup.protoFn "toString"
  | "valueOf" => PropLookup.protoFn "valueOf"
  | _ => PropLookup.nonFunction

/-- Outcome of invoking a JS function: a returned value or a thrown
exception. -/
inductive CallResult where
  | value : JsValue → CallResult
  | thrown : CallResult

/-- `forward(r2)` when `forward` is an inherited `Object.prototype` method.
The handler is an ES module, so the bare call runs in strict mode with
`this` undefined: `toString` returns the string "[object Undefined]";
`isPrototypeOf` returns false without touching `this` (its argument is a
number, not an object); `constructor` is the `Object` function, which wraps
its numeric argument in a Number object; `valueOf`, `hasOwnProperty`,
`propertyIsEnumerable` and `toLocaleString` all throw a TypeError coercing
the undefined `this` to an object. -/
def protoCall (name : String) (r2 : ℝ) : CallResult :=
  match name with
  | "toString" => CallResult.value (JsValue.str "[object Undefined]")
  | "isPrototypeOf" => CallResult.value (JsValue.bool false)
  | "constructor" => CallResult.value (JsValue.wrappedNum r2)
  | _ => CallResult.thrown

/-- `mainResult = forward(r2)` inside the handler's try block: an own table
entry returns its number (total and finite in the exact-real model);
inherited prototype methods behave per `protoCall`; invoking a non-function
would itself throw. -/
def applyForward (forward : PropLookup) (r2 : ℝ) : CallResult :=
  match forward with
  | PropLookup.ownFn f => CallResult.value (JsValue.num (f r2))
  | PropLookup.protoFn name => protoCall name r2
  | PropLookup.nonFunction => CallResult.thrown

/-- The final step
`typeof mainResult === 'number' && isFinite(mainResult) ? Number(mainResult.toFixed(6)) : mainResult`:
a number (finite in this model) is rounded to 6 decimals; any other value is
passed through unrounded. -/
def postprocess : JsValue → Response
  | JsValue.num v => Response.ok (round6 v)
  | w => Response.okRaw w

/-- The key the fixed variant hardcodes. -/
def negLogKey : String := "-log(1-R²) ★"

namespace Sel

/-- The POST handler of `src/functions/api/result.js`, after JSON parsing:
`rows?` is the parsed `rows` field (`none` = absent or not an array),
`transformKey?` the parsed `transformKey` (`none` = absent; the JS falsiness
check `!transformKey` also fires on the empty string). The
`typeof forward !== 'function'` guard fires exactly on a `nonFunction`
lookup; the `try { forward(r2) } catch` block is `applyForward` with its
`thrown` branch answering 422 "Transform failed"; the finite-number check
and 6-decimal rounding are `postprocess`. -/
def onRequestPost (rows? : Option (List Row)) (transformKey? : Option String) : Response :=
  match rows?, transformKey? with
  | some rows, some transformKey =>
    if transformKey = "" then Response.error 400 "Missing rows or transformKey"
    else if (xsOf rows).length < 2 then Response.error 400 "Need at least 2 valid points"
    else
      match TRANSFORMS transformKey with
      | PropLookup.nonFunction => Response.error 400 "Unknown transform"
      | forward =>
        match fit (xsOf rows) (ysOf rows) with
        | none => Response.error 422 "Fit failed"
        | some r2 =>
          match applyForward forward r2 with
          | CallResult.thrown => Response.error 422 "Transform failed"
          | CallResult.value mainResult => postprocess mainResult
  | _, _ => Response.error 400 "Missing rows or transformKey"

end Sel

namespace Fixed

/-- The POST handler of `src/unnamed/part_000`, after JSON parsing. -/
def onRequestPost (rows? : Option (List Row)) : Response :=
  match rows? with
  | some rows =>
    if (xsOf rows).length < 2 then Response.error 400 "Vajag vismaz 2 derīgus punktus"
    else
      match fit (xsOf rows) (ysOf rows) with
      | none => Response.error 422 "Pielāgošana neizdevās"
      | some r2 => Response.ok (round6 (transform r2))
  | none => Response.error 400 "Trūkst datu rindu"

end Fixed

end

/-! ### Helper lemmas -/

lemma getD_eq_of_all_eq {x : List ℝ} {c : ℝ} (hall : ∀ v ∈ x, v = c) {i : ℕ}
    (hi : i < x.length) : x.getD i 0 = c := by
  rw [List.getD_eq_getElem?_getD, List.getElem?_eq_getElem hi]
  exact hall _ (List.getElem_mem hi)

lemma detOf_const (x : List ℝ) (c : ℝ) (hall : ∀ v ∈ x, v = c) : detOf x = 0 := by
  have hterm1 : ∀ i ∈ Finset.range x.length,
      (1 : ℝ) / (x.getD i 0 * x.getD i 0) = 1 / (c * c) := fun i hi => by
    rw [getD_eq_of_all_eq hall (Finset.mem_range.mp hi)]
  have hterm2 : ∀ i ∈ Finset.range x.length,
      (1 : ℝ) / (x.getD i 0 * x.getD i 0) * (1 / (x.getD i 0 * x.getD i 0)) =
        1 / (c * c) * (1 / (c * c)) := fun i hi => by
    rw [getD_eq_of_all_eq hall (Finset.mem_range.mp hi)]
  have h1 : sumU x = (x.length : ℝ) * (1 / (c * c)) := by
    unfold sumU; rw [Finset.sum_congr rfl hterm1]
    simp [Finset.sum_const, Finset.card_range]
  have h2 : sumU2 x = (x.length : ℝ) * (1 / (c * c) * (1 / (c * c))) := by
    unfold sumU2; rw [Finset.sum_congr rfl hterm2]
    simp [Finset.sum_const, Finset.card_range]
  unfold detOf
  rw [h1, h2]; ring

lemma protoCall_no_num (name : String) (r2 v : ℝ) :
    protoCall name r2 ≠ CallResult.value (JsValue.num v) := by
  unfold protoCall
  split <;> simp

lemma postprocess_ok {w : JsValue} {v : ℝ} (h : postprocess w = Response.ok v) :
    ∃ u, w = JsValue.num u ∧ v = round6 u := by
  cases w <;> simp [postprocess] at h
  exact ⟨_, rfl, h.symm⟩

lemma postprocess_okRaw {w2 w : JsValue} (h : postprocess w2 = Response.okRaw w) :
    w2 = w := by
  cases w2 <;> simp [postprocess] at h <;> exact h

lemma keepRow_eq_none_iff (r : Row) :
    keepRow r = none ↔ r.1 = none ∨ r.2 = none ∨ ∃ xv, r.1 = some xv ∧ xv ≤ 0 := by
  rcases r with ⟨x?, y?⟩
  rcases x? with _ | xv <;> rcases y? with _ | yv <;> simp [keepRow]

lemma sel_handler_fitfail (rows : List Row) (key : String) (f : ℝ → ℝ)
    (hk : key ≠ "") (hn : ¬(xsOf rows).length < 2)
    (hf : TRANSFORMS key = PropLookup.ownFn f)
    (hfit : Sel.fit (xsOf rows) (ysOf rows) = none) :
    Sel.onRequestPost (some rows) (some key) = Response.error 422 "Fit failed" := by
  simp only [Sel.onRequestPost, if_neg hk, if_neg hn, hf, hfit]

lemma sel_handler_needpoints (rows : List Row) (key : String)
    (hk : key ≠ "") (hn : (xsOf rows).length < 2) :
    Sel.onRequestPost (some rows) (some key) = Response.error 400 "Need at least 2 valid points" := by
  simp only [Sel.onRequestPost, if_neg hk, if_pos hn]

lemma fixed_handler_needpoints (rows : List Row) (hn : (xsOf rows).length < 2) :
    Fixed.onRequestPost (some rows) = Response.error 400 "Vajag vismaz 2 derīgus punktus" := by
  simp only [Fixed.onRequestPost, if_pos hn]

lemma sel_handler_ok (rows : List Row) (key : String) (v : ℝ)
    (h : Sel.onRequestPost (some rows) (some key) = Response.ok v) :
    ∃ f r2, TRANSFORMS key = PropLookup.ownFn f ∧
      Sel.fit (xsOf rows) (ysOf rows) = some r2 ∧ v = round6 (f r2) := by
  simp only [Sel.onRequestPost] at h
  split_ifs at h
  cases hT : TRANSFORMS key with
  | ownFn f =>
    rw [hT] at h
    rcases hF : Sel.fit (xsOf rows) (ysOf rows) with _ | r2 <;> rw [hF] at h
    · simp at h
    · simp only [applyForward, postprocess, Response.ok.injEq] at h
      exact ⟨f, r2, rfl, rfl, h.symm⟩
  | protoFn name =>
    rw [hT] at h
    rcases hF : Sel.fit (xsOf rows) (ysOf rows) with _ | r2 <;> rw [hF] at h
    · simp at h
    · simp only [applyForward] at h
      rcases hC : protoCall name r2 with w2 | _ <;> rw [hC] at h
      · obtain ⟨u, rfl, -⟩ := postprocess_ok h
        exact absurd hC (protoCall_no_num name r2 u)
      · simp at h
  | nonFunction =>
    rw [hT] at h
    simp at h

lemma sel_handler_okRaw (rows : List Row) (key : String) (w : JsValue)
    (h : Sel.onRequestPost (some rows) (some key) = Response.okRaw w) :
    ∃ name r2, TRANSFORMS key = PropLookup.protoFn name ∧
      Sel.fit (xsOf rows) (ysOf rows) = some r2 ∧
      protoCall name r2 = CallResult.value w := by
  simp only [Sel.onRequestPost] at h
  split_ifs at h
  cases hT : TRANSFORMS key with
  | ownFn f =>
    rw [hT] at h
    rcases hF : Sel.fit (xsOf rows) (ysOf rows) with _ | r2 <;> rw [hF] at h
    · simp at h
    · simp [applyForward, postprocess] at h
  | protoFn name =>
    rw [hT] at h
    rcases hF : Sel.fit (xsOf rows) (ysOf rows) with _ | r2 <;> rw [hF] at h
    · simp at h
    · simp only [applyForward] at h
      rcases hC : protoCall name r2 with w2 | _ <;> rw [hC] at h
      · rw [postprocess_okRaw h] at hC
        exact ⟨name, r2, rfl, rfl, hC⟩
      · simp at h
  | nonFunction =>
    rw [hT] at h
    simp at h

lemma fixed_handler_ok (rows : List Row) (v : ℝ)
    (h : Fixed.onRequestPost (some rows) = Response.ok v) :
    ∃ r2, Fixed.fit (xsOf rows) (ysOf rows) = some r2 ∧ v = round6 (Fixed.transform r2) := by
  simp only [Fixed.onRequestPost] at h
  split_ifs at h
  rcases hF : Fixed.fit (xsOf rows) (ysOf rows) with _ | r2 <;> rw [hF] at h
  · simp at h
  · simp only [Response.ok.injEq] at h
    exact ⟨r2, rfl, h.symm⟩

example : xsOf [((some 1, some 1) : Row), (some 2, some 2)] = [1, 2] := by
  simp [xsOf, keptRows, keepRow]

example : xsOf [((none, some 5) : Row), (some (-1), some 5)] = [] := by
  simp [xsOf, keptRows, keepRow]

example : reciprocalComplement 0 = 1 ∧ expReciprocalComplement 0 = Real.exp 1 ∧
    negLogComplement 0 = 0 ∧ squareT 0 = 0 := by
  refine ⟨?_, ?_, ?_, ?_⟩ <;>
    norm_num [reciprocalComplement, expReciprocalComplement, negLogComplement, squareT]

/-- Claim C3: `fit` signals DEGENERATE exactly when `|det| < 1e-20`, in
particular for all-equal x values, and in that case the endpoint responds
with status 422 and an error payload instead of a mainResult. -/
theorem c3_degenerate_detection :
    (∀ x y : List ℝ, Sel.fit x y = none ↔ |detOf x| < 1e-20) ∧
    (∀ (x y : List ℝ) (c : ℝ), 0 < c → (∀ v ∈ x, v = c) → Sel.fit x y = none) ∧
    (∀ (rows : List Row) (key : String) (f : ℝ → ℝ), key ≠ "" →
      ¬(xsOf rows).length < 2 → TRANSFORMS key = PropLookup.ownFn f →
      Sel.fit (xsOf rows) (ysOf rows) = none →
      Sel.onRequestPost (some rows) (some key) = Response.error 422 "Fit failed") := by
  refine ⟨fun x y => ?_, fun x y c hc hall => ?_, sel_handler_fitfail⟩
  · unfold Sel.fit; split_ifs with h <;> simp [h]
  · unfold Sel.fit
    rw [detOf_const x c hall]
    norm_num

/-- Witness for C3 at the concrete input rows = [[1,0],[1,1]] (all x equal). -/
theorem c3_witness :
    Sel.onRequestPost (some [((some 1, some 0) : Row), (some 1, some 1)]) (some negLogKey) =
      Response.error 422 "Fit failed" :=
  c3_degenerate_detection.2.2 _ negLogKey negLogComplement (by simp [negLogKey])
    (by simp [xsOf, keptRows, keepRow]) rfl (by
      have hx : xsOf [((some 1, some 0) : Row), (some 1, some 1)] = [1, 1] := by
        simp [xsOf, keptRows, keepRow]
      have hy : ysOf [((some 1, some 0) : Row), (some 1, some 1)] = [0, 1] := by
        simp [ysOf, keptRows, keepRow]
      rw [hx, hy]
      norm_num [Sel.fit, detOf, sumU, sumU2, Finset.sum_range_succ, abs_lt])

/-- Claim C6: a row is dropped (without failing the request) iff an entry
fails to parse or x ≤ 0; fewer than 2 survivors yields the 400
need-at-least-2-valid-points error (each variant with its own message). -/
theorem c6_row_filtering :
    (∀ r : Row, keepRow r = none ↔ r.1 = none ∨ r.2 = none ∨ ∃ xv, r.1 = some xv ∧ xv ≤ 0) ∧
    (∀ (rows : List Row) (key : String), key ≠ "" → (xsOf rows).length < 2 →
      Sel.onRequestPost (some rows) (some key) = Response.error 400 "Need at least 2 valid points") ∧
    (∀ rows : List Row, (xsOf rows).length < 2 →
      Fixed.onRequestPost (some rows) = Response.error 400 "Vajag vismaz 2 derīgus punktus") :=
  ⟨keepRow_eq_none_iff, sel_handler_needpoints, fixed_handler_needpoints⟩

/-- Witness for C6: an unparseable x and a non-positive x are both dropped,
leaving fewer than 2 rows. -/
theorem c6_witness :
    Sel.onRequestPost (some [((none, some 5) : Row), (some (-1), some 5)]) (some negLogKey) =
      Response.error 400 "Need at least 2 valid points" :=
  c6_row_filtering.2.1 _ negLogKey (by simp [negLogKey]) (by simp [xsOf, keptRows, keepRow])

/-- Claim C7: the four documented baseline values at R² = 0. -/
theorem c7_baselines :
    reciprocalComplement 0 = 1 ∧ expReciprocalComplement 0 = Real.exp 1 ∧
    negLogComplement 0 = 0 ∧ squareT 0 = 0 := by
  refine ⟨?_, ?_, ?_, ?_⟩ <;>
    norm_num [reciprocalComplement, expReciprocalComplement, negLogComplement, squareT]

/-- Claim C8: every 200 response with a numeric mainResult carries round6 of
the transform output (in the exact-real model a numeric transform output is
always finite), and every 200 response with a non-numeric mainResult passes
the invoked value through unrounded, exactly as produced. -/
theorem c8_rounded_output :
    (∀ (rows : List Row) (key : String) (v : ℝ),
      Sel.onRequestPost (some rows) (some key) = Response.ok v →
      ∃ f r2, TRANSFORMS key = PropLookup.ownFn f ∧
        Sel.fit (xsOf rows) (ysOf rows) = some r2 ∧ v = round6 (f r2)) ∧
    (∀ (rows : List Row) (key : String) (w : JsValue),
      Sel.onRequestPost (some rows) (some key) = Response.okRaw w →
      ∃ name r2, TRANSFORMS key = PropLookup.protoFn name ∧
        Sel.fit (xsOf rows) (ysOf rows) = some r2 ∧
        protoCall name r2 = CallResult.value w) ∧
    (∀ (rows : List Row) (v : ℝ),
      Fixed.onRequestPost (some rows) = Response.ok v →
      ∃ r2, Fixed.fit (xsOf rows) (ysOf rows) = some r2 ∧ v = round6 (Fixed.transform r2)) :=
  ⟨sel_handler_ok, sel_handler_okRaw, fixed_handler_ok⟩

/-- Witness for C8 at a concrete successful request. -/
theorem c8_witness :
    ∃ f r2, TRANSFORMS negLogKey = PropLookup.ownFn f ∧
      Sel.fit (xsOf [((some 1, some 1) : Row), (some 2, some (1/4))])
        (ysOf [((some 1, some 1) : Row), (some 2, some (1/4))]) = some r2 ∧
      round6 (negLogComplement 1) = round6 (f r2) :=
  c8_rounded_output.1 _ negLogKey (round6 (negLogComplement 1)) (by
    have hx : xsOf [((some 1, some 1) : Row), (some 2, some (1/4))] = [1, 2] := by
      simp [xsOf, keptRows, keepRow]
    have hy : ysOf [((some 1, some 1) : Row), (some 2, some (1/4))] = [1, 1/4] := by
      simp [ysOf, keptRows, keepRow]
    have hfit : Sel.fit [1, 2] [1, 1/4] = some 1 := by
      norm_num [Sel.fit, detOf, sumU, sumU2, sumY, sumUY, r2Of, ssResOf, ssTotOf, aOf, bOf,
        yPredAt, Finset.sum_range_succ, abs_lt]
    have hT : TRANSFORMS negLogKey = PropLookup.ownFn negLogComplement := rfl
    simp only [Sel.onRequestPost, hx, hy, hfit, hT, applyForward, postprocess]
    simp [negLogKey])

/-- Claim C9: the two variants' fit routines agree on every input, and the
fixed variant's transform is the selectable table's neg-log-complement
entry. -/
theorem c9_variants_agree :
    (∀ x y : List ℝ, Sel.fit x y = Fixed.fit x y) ∧
    TRANSFORMS negLogKey = PropLookup.ownFn negLogComplement ∧
    (∀ r : ℝ, negLogComplement r = Fixed.transform r) :=
  ⟨fun _ _ => rfl, rfl, fun _ => rfl⟩

/-! ### Monotonicity and sign of the transforms -/

lemma clamp_mono (hi : ℝ) : Monotone (fun r : ℝ => max 0 (min hi r)) :=
  fun _ _ h => max_le_max le_rfl (min_le_min le_rfl h)

lemma clamp_le_hi (hi r : ℝ) (h : 0 ≤ hi) : max 0 (min hi r) ≤ hi :=
  max_le h (min_le_left _ _)

lemma monotone_sat {θ C : ℝ} {g : ℝ → ℝ} (hg : Monotone g) (hC : ∀ a, g a ≤ C) :
    Monotone (fun r => if θ ≤ r then C else g r) := by
  intro a b hab
  dsimp only
  by_cases hb : θ ≤ b
  · rw [if_pos hb]
    by_cases ha : θ ≤ a
    · rw [if_pos ha]
    · rw [if_neg ha]; exact hC a
  · have ha : ¬θ ≤ a := fun h => hb (le_trans h hab)
    rw [if_neg ha, if_neg hb]
    exact hg hab

lemma mono_reciprocalComplement : Monotone reciprocalComplement := by
  unfold reciprocalComplement
  apply monotone_sat
  · intro a b hab
    have h1 : max 0 (min 0.999 a) ≤ max 0 (min 0.999 b) := clamp_mono 0.999 hab
    have h2 : max 0 (min 0.999 b) ≤ 0.999 := clamp_le_hi _ _ (by norm_num)
    exact one_div_le_one_div_of_le (by linarith) (by linarith)
  · intro a
    have h2 : max 0 (min 0.999 a) ≤ 0.999 := clamp_le_hi _ _ (by norm_num)
    have h3 : (1:ℝ) / (1 - max 0 (min 0.999 a)) ≤ 1 / (1/1000) :=
      one_div_le_one_div_of_le (by norm_num) (by linarith)
    calc (1:ℝ) / (1 - max 0 (min 0.999 a)) ≤ 1 / (1/1000) := h3
    _ ≤ 1e10 := by norm_num

lemma mono_negLogComplement : Monotone negLogComplement := by
  intro a b hab
  unfold negLogComplement
  have hm : max 0 (min 0.9999 a) ≤ max 0 (min 0.9999 b) := clamp_mono _ hab
  have hpos : (0:ℝ) < max 1e-10 (1 - max 0 (min 0.9999 b)) :=
    lt_of_lt_of_le (by norm_num) (le_max_left _ _)
  have hle : max 1e-10 (1 - max 0 (min 0.9999 b)) ≤ max 1e-10 (1 - max 0 (min 0.9999 a)) :=
    max_le_max le_rfl (by linarith)
  have := Real.log_le_log hpos hle
  linarith

lemma mono_invSqrtComplement : Monotone invSqrtComplement := by
  unfold invSqrtComplement
  apply monotone_sat
  · intro a b hab
    have hm : max 0 (min 0.999 a) ≤ max 0 (min 0.999 b) := clamp_mono _ hab
    have hposb : (0:ℝ) < max 1e-10 (1 - max 0 (min 0.999 b)) :=
      lt_of_lt_of_le (by norm_num) (le_max_left _ _)
    have hle : max 1e-10 (1 - max 0 (min 0.999 b)) ≤ max 1e-10 (1 - max 0 (min 0.999 a)) :=
      max_le_max le_rfl (by linarith)
    exact one_div_le_one_div_of_le (Real.sqrt_pos.mpr hposb) (Real.sqrt_le_sqrt hle)
  · intro a
    have h2 : Real.sqrt 1e-10 ≤ Real.sqrt (max 1e-10 (1 - max 0 (min 0.999 a))) :=
      Real.sqrt_le_sqrt (le_max_left _ _)
    have h3 : (0:ℝ) < Real.sqrt 1e-10 := Real.sqrt_pos.mpr (by norm_num)
    have h5 : Real.sqrt 1e-10 = 1e-5 := by
      rw [show (1e-10:ℝ) = (1e-5)^2 by norm_num, Real.sqrt_sq (by norm_num : (0:ℝ) ≤ 1e-5)]
    have h4 : 1 / Real.sqrt (max 1e-10 (1 - max 0 (min 0.999 a))) ≤ 1 / Real.sqrt 1e-10 :=
      one_div_le_one_div_of_le h3 h2
    rw [h5] at h4
    calc 1 / Real.sqrt (max 1e-10 (1 - max 0 (min 0.999 a))) ≤ 1 / 1e-5 := h4
    _ ≤ 1e10 := by norm_num

lemma mono_tanHalfPi : Monotone tanHalfPi := by
  intro a b hab
  unfold tanHalfPi
  have h0a : 0 ≤ max 0 (min 0.999 a) := le_max_left _ _
  have h1b : max 0 (min 0.999 b) ≤ 0.999 := clamp_le_hi _ _ (by norm_num)
  have hm : max 0 (min 0.999 a) ≤ max 0 (min 0.999 b) := clamp_mono _ hab
  have hpi := Real.pi_pos
  have hangle : Real.pi * max 0 (min 0.999 a) / 2 ≤ Real.pi * max 0 (min 0.999 b) / 2 := by
    have := mul_le_mul_of_nonneg_left hm hpi.le
    linarith
  rcases eq_or_lt_of_le hangle with heq | hlt
  · rw [heq]
  · apply le_of_lt
    apply Real.tan_lt_tan_of_nonneg_of_lt_pi_div_two
    · positivity
    · nlinarith
    · exact hlt

lemma mono_expDecayScaled : Monotone expDecayScaled := by
  intro a b hab
  unfold expDecayScaled
  have := max_le_max (le_refl (0:ℝ)) hab
  exact Real.exp_le_exp.mpr (by linarith)

lemma mono_invCubeComplement : Monotone invCubeComplement := by
  unfold invCubeComplement
  apply monotone_sat
  · intro a b hab
    have hm : max 0 (min 0.999 a) ≤ max 0 (min 0.999 b) := clamp_mono _ hab
    have hposb : (0:ℝ) < max 1e-10 (1 - max 0 (min 0.999 b)) :=
      lt_of_lt_of_le (by norm_num) (le_max_left _ _)
    have hle : max 1e-10 (1 - max 0 (min 0.999 b)) ≤ max 1e-10 (1 - max 0 (min 0.999 a)) :=
      max_le_max le_rfl (by linarith)
    exact one_div_le_one_div_of_le (pow_pos hposb 3) (pow_le_pow_left₀ hposb.le hle 3)
  · intro a
    have h2 : max 0 (min 0.999 a) ≤ 0.999 := clamp_le_hi _ _ (by norm_num)
    have h3 : (1/1000 : ℝ) ≤ max 1e-10 (1 - max 0 (min 0.999 a)) :=
      le_max_of_le_right (by linarith)
    have h4 : ((1:ℝ)/1000) ^ 3 ≤ (max 1e-10 (1 - max 0 (min 0.999 a))) ^ 3 :=
      pow_le_pow_left₀ (by norm_num) h3 3
    have h5 : 1 / (max 1e-10 (1 - max 0 (min 0.999 a))) ^ 3 ≤ 1 / ((1:ℝ)/1000) ^ 3 :=
      one_div_le_one_div_of_le (by positivity) h4
    calc 1 / (max 1e-10 (1 - max 0 (min 0.999 a))) ^ 3 ≤ 1 / ((1:ℝ)/1000) ^ 3 := h5
    _ ≤ 1e30 := by norm_num

lemma mono_log1p : Monotone log1p := by
  intro a b hab
  unfold log1p
  have ha := le_max_left (0:ℝ) a
  have := max_le_max (le_refl (0:ℝ)) hab
  exact Real.log_le_log (by linarith) (by linarith)

lemma mono_expClampedLow : Monotone expClampedLow := fun _ _ hab =>
  Real.exp_le_exp.mpr (max_le_max le_rfl hab)

lemma mono_sqrt1p : Monotone sqrt1p := by
  intro a b hab
  unfold sqrt1p
  have := max_le_max (le_refl (0:ℝ)) hab
  exact Real.sqrt_le_sqrt (by linarith)

lemma mono_squareT : Monotone squareT := fun _ _ hab =>
  pow_le_pow_left₀ (le_max_left _ _) (max_le_max le_rfl hab) 2

lemma mono_arctanNormalized : Monotone arctanNormalized := by
  intro a b hab
  unfold arctanNormalized
  have h := Real.arctan_strictMono.monotone (max_le_max (le_refl (0:ℝ)) hab)
  have h2 : Real.arctan (max 0 a) * 2 ≤ Real.arctan (max 0 b) * 2 := by linarith
  exact (div_le_div_iff_of_pos_right Real.pi_pos).mpr h2

lemma mono_saturatingFrac : Monotone saturatingFrac := by
  intro a b hab
  unfold saturatingFrac
  have h0a : (0:ℝ) ≤ max 0 a := le_max_left _ _
  have h0b : (0:ℝ) ≤ max 0 b := le_max_left _ _
  have hm : max 0 a ≤ max 0 b := max_le_max le_rfl hab
  rw [div_le_div_iff₀ (by linarith) (by linarith)]
  nlinarith

lemma mono_sinhT : Monotone sinhT := fun _ _ hab =>
  Real.sinh_le_sinh.mpr (max_le_max le_rfl hab)

lemma anti_expNegative : Antitone expNegative := by
  intro a b hab
  unfold expNegative
  have := max_le_max (le_refl (0:ℝ)) hab
  exact Real.exp_le_exp.mpr (by linarith)

lemma nonneg_reciprocalComplement (r : ℝ) : 0 ≤ reciprocalComplement r := by
  unfold reciprocalComplement
  split_ifs
  · norm_num
  · have h2 : max 0 (min 0.999 r) ≤ 0.999 := clamp_le_hi _ _ (by norm_num)
    exact le_of_lt (one_div_pos.mpr (by linarith))

lemma nonneg_expReciprocalComplement (r : ℝ) : 0 ≤ expReciprocalComplement r := by
  unfold expReciprocalComplement
  split_ifs
  · norm_num
  · exact (Real.exp_pos _).le

lemma nonneg_negLogComplement (r : ℝ) : 0 ≤ negLogComplement r := by
  unfold negLogComplement
  have h0 : 0 ≤ max 0 (min 0.9999 r) := le_max_left _ _
  have h1 : max 1e-10 (1 - max 0 (min 0.9999 r)) ≤ 1 := max_le (by norm_num) (by linarith)
  have h2 : (0:ℝ) ≤ max 1e-10 (1 - max 0 (min 0.9999 r)) :=
    le_trans (by norm_num) (le_max_left _ _)
  have := Real.log_nonpos h2 h1
  linarith

lemma nonneg_invSqrtComplement (r : ℝ) : 0 ≤ invSqrtComplement r := by
  unfold invSqrtComplement
  split_ifs
  · norm_num
  · exact one_div_nonneg.mpr (Real.sqrt_nonneg _)

lemma nonneg_tanHalfPi (r : ℝ) : 0 ≤ tanHalfPi r := by
  unfold tanHalfPi
  have h0 : 0 ≤ max 0 (min 0.999 r) := le_max_left _ _
  have h1 : max 0 (min 0.999 r) ≤ 0.999 := clamp_le_hi _ _ (by norm_num)
  have hpi := Real.pi_pos
  apply Real.tan_nonneg_of_nonneg_of_le_pi_div_two
  · positivity
  · nlinarith

lemma nonneg_expDecayScaled (r : ℝ) : 0 ≤ expDecayScaled r := (Real.exp_pos _).le

lemma nonneg_invCubeComplement (r : ℝ) : 0 ≤ invCubeComplement r := by
  unfold invCubeComplement
  split_ifs
  · norm_num
  · have h2 : (0:ℝ) ≤ max 1e-10 (1 - max 0 (min 0.999 r)) :=
      le_trans (by norm_num) (le_max_left _ _)
    exact one_div_nonneg.mpr (pow_nonneg h2 3)

lemma nonneg_log1p (r : ℝ) : 0 ≤ log1p r := by
  unfold log1p
  exact Real.log_nonneg (by linarith [le_max_left (0:ℝ) r])

lemma nonneg_expClampedLow (r : ℝ) : 0 ≤ expClampedLow r := (Real.exp_pos _).le

lemma nonneg_sqrt1p (r : ℝ) : 0 ≤ sqrt1p r := Real.sqrt_nonneg _

lemma nonneg_squareT (r : ℝ) : 0 ≤ squareT r := sq_nonneg _

lemma nonneg_arctanNormalized (r : ℝ) : 0 ≤ arctanNormalized r := by
  unfold arctanNormalized
  have h : Real.arctan 0 ≤ Real.arctan (max 0 r) :=
    Real.arctan_strictMono.monotone (le_max_left _ _)
  rw [Real.arctan_zero] at h
  have h2 : 0 ≤ Real.arctan (max 0 r) * 2 := by linarith
  exact div_nonneg h2 Real.pi_pos.le

lemma nonneg_saturatingFrac (r : ℝ) : 0 ≤ saturatingFrac r :=
  div_nonneg (le_max_left _ _) (by linarith [le_max_left (0:ℝ) r])

lemma nonneg_sinhT (r : ℝ) : 0 ≤ sinhT r := by
  unfold sinhT
  have : Real.sinh 0 ≤ Real.sinh (max 0 r) := Real.sinh_le_sinh.mpr (le_max_left _ _)
  rwa [Real.sinh_zero] at this

lemma nonneg_expNegative (r : ℝ) : 0 ≤ expNegative r := (Real.exp_pos _).le

/-- Claim C1 (amended): thirteen of the fifteen transforms are non-decreasing
on all of ℝ; `exp(-R²)` is non-increasing, and `exp(1/(1-R²)) ★` is excluded
because it drops from exp(500) to 1e100 at the 0.999 saturation threshold. -/
theorem c1_monotonicity :
    Monotone reciprocalComplement ∧ Monotone negLogComplement ∧
    Monotone invSqrtComplement ∧ Monotone tanHalfPi ∧ Monotone expDecayScaled ∧
    Monotone invCubeComplement ∧ Monotone log1p ∧ Monotone expClampedLow ∧
    Monotone sqrt1p ∧ Monotone squareT ∧ Monotone arctanNormalized ∧
    Monotone saturatingFrac ∧ Monotone sinhT ∧ Antitone expNegative :=
  ⟨mono_reciprocalComplement, mono_negLogComplement, mono_invSqrtComplement,
   mono_tanHalfPi, mono_expDecayScaled, mono_invCubeComplement, mono_log1p,
   mono_expClampedLow, mono_sqrt1p, mono_squareT, mono_arctanNormalized,
   mono_saturatingFrac, mono_sinhT, anti_expNegative⟩

/-- Counterexample to C1 as stated: `exp(-R²)` strictly decreases from 0 to 1,
and `exp(1/(1-R²)) ★` strictly decreases from 0.998 to 0.999 (in exact
arithmetic exp(500) > 1e100, the saturation value). -/
theorem c1_counterexample :
    ((0:ℝ) ≤ 1 ∧ expNegative 1 < expNegative 0) ∧
    ((0.998:ℝ) ≤ 0.999 ∧ expReciprocalComplement 0.999 < expReciprocalComplement 0.998) := by
  constructor
  · refine ⟨by norm_num, ?_⟩
    unfold expNegative
    apply Real.exp_lt_exp.mpr
    norm_num
  · refine ⟨by norm_num, ?_⟩
    unfold expReciprocalComplement
    rw [if_pos (by norm_num : (0.999:ℝ) ≤ 0.999), if_neg (by norm_num : ¬(0.999:ℝ) ≤ 0.998)]
    have h1 : max 0 (min 0.999 (0.998:ℝ)) = 0.998 := by
      rw [min_eq_right (by norm_num), max_eq_right (by norm_num)]
    rw [h1, show (1:ℝ) / (1 - 0.998) = 500 by norm_num]
    have h4 := Real.exp_nat_mul (5/2 : ℝ) 200
    have h5 : (7/2:ℝ) ≤ Real.exp (5/2) := by
      have := Real.add_one_le_exp (5/2 : ℝ)
      linarith
    have h6 : ((7:ℝ)/2)^200 ≤ Real.exp (5/2)^200 := pow_le_pow_left₀ (by norm_num) h5 200
    have h7 : (1e100:ℝ) < ((7:ℝ)/2)^200 := by norm_num
    calc (1e100:ℝ) < ((7:ℝ)/2)^200 := h7
    _ ≤ Real.exp (5/2)^200 := h6
    _ = Real.exp ((200:ℕ) * (5/2)) := h4.symm
    _ = Real.exp 500 := by norm_num

/-- Witness for C1 applied at concrete inputs 0 ≤ 1 for the first conjunct. -/
theorem c1_witness : reciprocalComplement 0 ≤ reciprocalComplement 1 :=
  c1_monotonicity.1 (by norm_num)

/-! ### Algebra of the least-squares fit -/

lemma detOf_ne_zero_of_guard {x : List ℝ} (h : ¬|detOf x| < 1e-20) : detOf x ≠ 0 := by
  intro h0
  rw [h0] at h
  norm_num at h

lemma sum_resid_expand (x y : List ℝ) (a b : ℝ) :
    ∑ i in Finset.range x.length, (y.getD i 0 - yPredAt a b x i) =
      sumY x y - b * sumU x - (x.length : ℝ) * a := by
  have hpt : ∀ i ∈ Finset.range x.length,
      y.getD i 0 - yPredAt a b x i =
        y.getD i 0 - b * (1 / (x.getD i 0 * x.getD i 0)) - a := by
    intro i _
    unfold yPredAt
    rw [div_eq_mul_one_div]
    ring
  rw [Finset.sum_congr rfl hpt, Finset.sum_sub_distrib, Finset.sum_sub_distrib, ←Finset.mul_sum,
    Finset.sum_const, Finset.card_range, nsmul_eq_mul]
  unfold sumY sumU
  ring

lemma sum_residu_expand (x y : List ℝ) (a b : ℝ) :
    ∑ i in Finset.range x.length,
        (y.getD i 0 - yPredAt a b x i) * (1 / (x.getD i 0 * x.getD i 0)) =
      sumUY x y - b * sumU2 x - a * sumU x := by
  have hpt : ∀ i ∈ Finset.range x.length,
      (y.getD i 0 - yPredAt a b x i) * (1 / (x.getD i 0 * x.getD i 0)) =
        1 / (x.getD i 0 * x.getD i 0) * y.getD i 0 -
          b * (1 / (x.getD i 0 * x.getD i 0) * (1 / (x.getD i 0 * x.getD i 0))) -
          a * (1 / (x.getD i 0 * x.getD i 0)) := by
    intro i _
    unfold yPredAt
    rw [div_eq_mul_one_div]
    ring
  rw [Finset.sum_congr rfl hpt, Finset.sum_sub_distrib, Finset.sum_sub_distrib, ←Finset.mul_sum,
    ←Finset.mul_sum]
  unfold sumUY sumU2 sumU
  ring

lemma sum_resid_eq_zero {x y : List ℝ} (hD : detOf x ≠ 0) :
    ∑ i in Finset.range x.length, (y.getD i 0 - yPredAt (aOf x y) (bOf x y) x i) = 0 := by
  rw [sum_resid_expand]
  unfold aOf bOf
  field_simp
  unfold detOf at hD ⊢
  ring

lemma sum_residu_eq_zero {x y : List ℝ} (hD : detOf x ≠ 0) :
    ∑ i in Finset.range x.length,
        (y.getD i 0 - yPredAt (aOf x y) (bOf x y) x i) * (1 / (x.getD i 0 * x.getD i 0)) = 0 := by
  rw [sum_residu_expand]
  unfold aOf bOf
  field_simp
  unfold detOf at hD ⊢
  ring

lemma ssTot_eq_ssRes_add (x y : List ℝ) (hD : detOf x ≠ 0) :
    ssTotOf x y = ssResOf (aOf x y) (bOf x y) x y +
      ∑ i in Finset.range x.length,
        (yPredAt (aOf x y) (bOf x y) x i - sumY x y / (x.length : ℝ)) ^ 2 := by
  have hpt : ∀ i ∈ Finset.range x.length,
      (y.getD i 0 - sumY x y / (x.length : ℝ)) ^ 2 =
        (y.getD i 0 - yPredAt (aOf x y) (bOf x y) x i) ^ 2 +
          ((2 * bOf x y) *
            ((y.getD i 0 - yPredAt (aOf x y) (bOf x y) x i) * (1 / (x.getD i 0 * x.getD i 0))) +
          ((2 * (aOf x y - sumY x y / (x.length : ℝ))) *
            (y.getD i 0 - yPredAt (aOf x y) (bOf x y) x i) +
          (yPredAt (aOf x y) (bOf x y) x i - sumY x y / (x.length : ℝ)) ^ 2)) := by
    intro i _
    unfold yPredAt
    rw [div_eq_mul_one_div]
    ring
  unfold ssTotOf ssResOf
  rw [Finset.sum_congr rfl hpt, Finset.sum_add_distrib, Finset.sum_add_distrib,
    Finset.sum_add_distrib, ←Finset.mul_sum, ←Finset.mul_sum, sum_residu_eq_zero hD,
    sum_resid_eq_zero hD]
  ring

lemma ssRes_nonneg (a b : ℝ) (x y : List ℝ) : 0 ≤ ssResOf a b x y :=
  Finset.sum_nonneg fun _ _ => sq_nonneg _

lemma ssRes_le_ssTot (x y : List ℝ) (hD : detOf x ≠ 0) :
    ssResOf (aOf x y) (bOf x y) x y ≤ ssTotOf x y := by
  have h := ssTot_eq_ssRes_add x y hD
  have hsq : (0:ℝ) ≤ ∑ i in Finset.range x.length,
      (yPredAt (aOf x y) (bOf x y) x i - sumY x y / (x.length : ℝ)) ^ 2 :=
    Finset.sum_nonneg fun _ _ => sq_nonneg _
  linarith

lemma r2Of_le_one (x y : List ℝ) : r2Of x y ≤ 1 := by
  unfold r2Of
  split_ifs with h
  · have hres := ssRes_nonneg (aOf x y) (bOf x y) x y
    have := div_nonneg hres h.le
    linarith
  · norm_num

lemma r2Of_nonneg (x y : List ℝ) (hD : detOf x ≠ 0) : 0 ≤ r2Of x y := by
  unfold r2Of
  split_ifs with h
  · have hle := ssRes_le_ssTot x y hD
    have := (div_le_one h).mpr hle
    linarith
  · norm_num

/-- Claim C4 (amended): on every input that passes the determinant guard the
returned R² satisfies 0 ≤ R² ≤ 1 in exact arithmetic (the code applies no
clamp, but negativity cannot actually occur in exact arithmetic, because the
least-squares residual never exceeds the total sum of squares), and fit is
deterministic. -/
theorem c4_r2_range :
    (∀ (x y : List ℝ) (r : ℝ), Sel.fit x y = some r → 0 ≤ r ∧ r ≤ 1) ∧
    (∀ x y : List ℝ, Sel.fit x y = Sel.fit x y) := by
  refine ⟨fun x y r hr => ?_, fun _ _ => rfl⟩
  unfold Sel.fit at hr
  split_ifs at hr with h
  injection hr with hr
  rw [←hr]
  exact ⟨r2Of_nonneg x y (detOf_ne_zero_of_guard h), r2Of_le_one x y⟩

/-- Counterexample to C4's "it may be negative": no input whatsoever makes the
(exact-arithmetic) fit return a negative R². -/
theorem c4_counterexample :
    ¬∃ (x y : List ℝ) (r : ℝ), Sel.fit x y = some r ∧ r < 0 := by
  rintro ⟨x, y, r, hfit, hneg⟩
  unfold Sel.fit at hfit
  split_ifs at hfit with h
  injection hfit with hr
  have h0 := r2Of_nonneg x y (detOf_ne_zero_of_guard h)
  rw [hr] at h0
  linarith

/-- Witness for C4 at the concrete input x = [1,2], y = [1,0]. -/
theorem c4_witness :
    Sel.fit [1, 2] [1, 0] = some 1 ∧ (0:ℝ) ≤ 1 ∧ (1:ℝ) ≤ 1 := by
  have hfit : Sel.fit [1, 2] [1, 0] = some 1 := by
    norm_num [Sel.fit, detOf, sumU, sumU2, sumY, sumUY, r2Of, ssResOf, ssTotOf, aOf, bOf,
      yPredAt, Finset.sum_range_succ, abs_lt]
  exact ⟨hfit, (c4_r2_range.1 [1, 2] [1, 0] 1 hfit).1, (c4_r2_range.1 [1, 2] [1, 0] 1 hfit).2⟩

/-! ### Exact-model data: y[i] = b0/x[i]² + a0 -/

lemma sumY_model {x y : List ℝ} {a0 b0 : ℝ}
    (hxy : ∀ i < x.length, y.getD i 0 = b0 / (x.getD i 0 * x.getD i 0) + a0) :
    sumY x y = b0 * sumU x + (x.length : ℝ) * a0 := by
  unfold sumY sumU
  have hpt : ∀ i ∈ Finset.range x.length,
      y.getD i 0 = b0 * (1 / (x.getD i 0 * x.getD i 0)) + a0 := by
    intro i hi
    rw [hxy i (Finset.mem_range.mp hi), div_eq_mul_one_div]
  rw [Finset.sum_congr rfl hpt, Finset.sum_add_distrib, ←Finset.mul_sum, Finset.sum_const,
    Finset.card_range, nsmul_eq_mul]

lemma sumUY_model {x y : List ℝ} {a0 b0 : ℝ}
    (hxy : ∀ i < x.length, y.getD i 0 = b0 / (x.getD i 0 * x.getD i 0) + a0) :
    sumUY x y = b0 * sumU2 x + a0 * sumU x := by
  unfold sumUY sumU2 sumU
  have hpt : ∀ i ∈ Finset.range x.length,
      1 / (x.getD i 0 * x.getD i 0) * y.getD i 0 =
        b0 * (1 / (x.getD i 0 * x.getD i 0) * (1 / (x.getD i 0 * x.getD i 0))) +
          a0 * (1 / (x.getD i 0 * x.getD i 0)) := by
    intro i hi
    rw [hxy i (Finset.mem_range.mp hi), div_eq_mul_one_div]
    ring
  rw [Finset.sum_congr rfl hpt, Finset.sum_add_distrib, ←Finset.mul_sum, ←Finset.mul_sum]

lemma aOf_model {x y : List ℝ} {a0 b0 : ℝ} (hD : detOf x ≠ 0)
    (hxy : ∀ i < x.length, y.getD i 0 = b0 / (x.getD i 0 * x.getD i 0) + a0) :
    aOf x y = a0 := by
  unfold aOf
  rw [sumY_model hxy, sumUY_model hxy, div_eq_iff hD]
  unfold detOf
  ring

lemma bOf_model {x y : List ℝ} {a0 b0 : ℝ} (hD : detOf x ≠ 0)
    (hxy : ∀ i < x.length, y.getD i 0 = b0 / (x.getD i 0 * x.getD i 0) + a0) :
    bOf x y = b0 := by
  unfold bOf
  rw [sumY_model hxy, sumUY_model hxy, div_eq_iff hD]
  unfold detOf
  ring

lemma ssRes_model {x y : List ℝ} {a0 b0 : ℝ} (hD : detOf x ≠ 0)
    (hxy : ∀ i < x.length, y.getD i 0 = b0 / (x.getD i 0 * x.getD i 0) + a0) :
    ssResOf (aOf x y) (bOf x y) x y = 0 := by
  rw [aOf_model hD hxy, bOf_model hD hxy]
  unfold ssResOf
  apply Finset.sum_eq_zero
  intro i hi
  unfold yPredAt
  rw [hxy i (Finset.mem_range.mp hi)]
  ring

lemma inv_sq_injective_on_pos {u v : ℝ} (hu : 0 < u) (hv : 0 < v) (hne : u ≠ v) :
    1 / (u * u) ≠ 1 / (v * v) := by
  intro heq
  have h1 : u * u ≠ 0 := by positivity
  have h2 : v * v ≠ 0 := by positivity
  have hsq : v * v = u * u := by
    field_simp at heq
    linarith [heq]
  have : u = v := by nlinarith
  exact hne this

lemma ssTot_pos_model {x y : List ℝ} {a0 b0 : ℝ}
    (hxy : ∀ i < x.length, y.getD i 0 = b0 / (x.getD i 0 * x.getD i 0) + a0)
    (hb0 : b0 ≠ 0) {i j : ℕ} (hi : i < x.length) (hj : j < x.length)
    (hxpos : ∀ k < x.length, 0 < x.getD k 0) (hne : x.getD i 0 ≠ x.getD j 0) :
    0 < ssTotOf x y := by
  have hwne : 1 / (x.getD i 0 * x.getD i 0) ≠ 1 / (x.getD j 0 * x.getD j 0) :=
    inv_sq_injective_on_pos (hxpos i hi) (hxpos j hj) hne
  have hyne : y.getD i 0 ≠ y.getD j 0 := by
    rw [hxy i hi, hxy j hj]
    intro heq
    apply hwne
    have hb : b0 / (x.getD i 0 * x.getD i 0) = b0 / (x.getD j 0 * x.getD j 0) := by linarith
    rw [div_eq_mul_one_div b0 (x.getD i 0 * x.getD i 0),
      div_eq_mul_one_div b0 (x.getD j 0 * x.getD j 0)] at hb
    exact mul_left_cancel₀ hb0 hb
  unfold ssTotOf
  by_cases hkm : y.getD i 0 = sumY x y / (x.length : ℝ)
  · apply Finset.sum_pos' (fun k _ => sq_nonneg _)
    refine ⟨j, Finset.mem_range.mpr hj, ?_⟩
    have hsub : y.getD j 0 - sumY x y / (x.length : ℝ) ≠ 0 := by
      rw [←hkm]
      intro h0
      exact hyne (sub_eq_zero.mp h0).symm
    exact pow_two_pos_of_ne_zero hsub
  · apply Finset.sum_pos' (fun k _ => sq_nonneg _)
    exact ⟨i, Finset.mem_range.mpr hi, pow_two_pos_of_ne_zero (sub_ne_zero.mpr hkm)⟩

lemma perfect_fit_core {x y : List ℝ} {a0 b0 : ℝ}
    (hxy : ∀ i < x.length, y.getD i 0 = b0 / (x.getD i 0 * x.getD i 0) + a0)
    (hb0 : b0 ≠ 0) {i j : ℕ} (hi : i < x.length) (hj : j < x.length)
    (hxpos : ∀ k < x.length, 0 < x.getD k 0) (hne : x.getD i 0 ≠ x.getD j 0)
    (hguard : ¬|detOf x| < 1e-20) :
    Fixed.fit x y = some 1 := by
  have hD := detOf_ne_zero_of_guard hguard
  unfold Fixed.fit
  rw [if_neg hguard]
  unfold r2Of
  rw [if_pos (ssTot_pos_model hxy hb0 hi hj hxpos hne), ssRes_model hD hxy]
  norm_num

lemma transform_one : Fixed.transform 1 = -Real.log 1e-4 := by
  unfold Fixed.transform
  rw [min_eq_left (by norm_num : (0.9999:ℝ) ≤ 1), max_eq_right (by norm_num : (0:ℝ) ≤ 0.9999),
    show (1:ℝ) - 0.9999 = 1e-4 by norm_num, max_eq_right (by norm_num : (1e-10:ℝ) ≤ 1e-4)]

lemma round6_dist (v : ℝ) : |round6 v - v| ≤ 1 := by
  unfold round6
  have h := abs_sub_round (v * 1000000)
  have heq : ((round (v * 1000000) : ℤ) : ℝ) / 1000000 - v =
      -((v * 1000000 - ((round (v * 1000000) : ℤ) : ℝ)) / 1000000) := by ring
  rw [heq, abs_neg, abs_div, abs_of_pos (by norm_num : (0:ℝ) < 1000000)]
  have h2 : |v * 1000000 - ((round (v * 1000000) : ℤ) : ℝ)| / 1000000 ≤ (1/2) / 1000000 := by
    gcongr
  linarith

/-- Claim C2 (amended): with pairwise-distinct positive x, y generated exactly
from the model with b0 ≠ 0, and the determinant guard passing, fit returns
R² = 1 exactly; the fixed endpoint's transform value at 1 is -ln(1e-4)
(the 0.9999 clamp binds, so the 1e-10 floor does not), which is what gets
rounded to 6 decimals. -/
theorem c2_perfect_fit :
    ∀ (x y : List ℝ) (a0 b0 : ℝ),
      2 ≤ x.length → x.Pairwise (· ≠ ·) → (∀ k < x.length, 0 < x.getD k 0) →
      (∀ k < x.length, y.getD k 0 = b0 / (x.getD k 0 * x.getD k 0) + a0) →
      b0 ≠ 0 → ¬|detOf x| < 1e-20 →
      Fixed.fit x y = some 1 ∧ round6 (Fixed.transform 1) = round6 (-Real.log 1e-4) := by
  intro x y a0 b0 hlen hpw hxpos hxy hb0 hguard
  refine ⟨?_, by rw [transform_one]⟩
  obtain ⟨x0, x1, t, rfl⟩ : ∃ x0 x1 t, x = x0 :: x1 :: t := by
    rcases x with _ | ⟨x0, _ | ⟨x1, t⟩⟩
    · norm_num at hlen
    · norm_num at hlen
    · exact ⟨x0, x1, t, rfl⟩
  have h01 : x0 ≠ x1 := (List.pairwise_cons.mp hpw).1 x1 (by simp)
  have hi : (0:ℕ) < (x0 :: x1 :: t).length := by simp
  have hj : (1:ℕ) < (x0 :: x1 :: t).length := by
    simp [List.length_cons]
  have hne : (x0 :: x1 :: t).getD 0 0 ≠ (x0 :: x1 :: t).getD 1 0 := h01
  exact perfect_fit_core hxy hb0 hi hj hxpos hne hguard

/-- Counterexample to C2 as stated: (i) with b0 = 0 (a constant-y model
instance) the fit returns R² = 0, not 1; (ii) distinct positive x alone do
not guarantee a fit at all — large x make |det| < 1e-20 and fit returns the
DEGENERATE signal; (iii) at R² = 1 the transform value is -ln(1e-4), whose
6-decimal rounding differs from the claimed -ln(1e-10) ≈ 23.025851. -/
theorem c2_counterexample :
    Fixed.fit [1, 2] [5, 5] = some 0 ∧ (0:ℝ) ≠ 1 ∧
    Fixed.fit [1000000, 2000000] [1e-12, 2.5e-13] = none ∧
    round6 (Fixed.transform 1) ≠ round6 (-Real.log 1e-10) := by
  refine ⟨?_, by norm_num, ?_, ?_⟩
  · norm_num [Fixed.fit, detOf, sumU, sumU2, sumY, sumUY, r2Of, ssResOf, ssTotOf, aOf, bOf,
      yPredAt, Finset.sum_range_succ, abs_lt]
  · norm_num [Fixed.fit, detOf, sumU, sumU2, Finset.sum_range_succ, abs_lt]
  · rw [transform_one]
    have hlog : Real.log 1e-4 - Real.log 1e-10 = Real.log 1e6 := by
      rw [←Real.log_div (by norm_num) (by norm_num)]
      norm_num
    have h2 : (2:ℝ) < Real.log 1e6 := by
      have he : Real.exp 2 < 1e6 := by
        have h1 := Real.exp_one_lt_d9
        have hsq : Real.exp 2 = Real.exp 1 ^ 2 := by
          rw [←Real.exp_nat_mul]
          norm_num
        rw [hsq]
        nlinarith [Real.exp_pos 1]
      calc (2:ℝ) = Real.log (Real.exp 2) := (Real.log_exp 2).symm
      _ < Real.log 1e6 := Real.log_lt_log (Real.exp_pos 2) he
    intro heq
    have d1 := round6_dist (-Real.log 1e-4)
    have d2 := round6_dist (-Real.log 1e-10)
    rw [heq] at d1
    have hd1 := abs_le.mp d1
    have hd2 := abs_le.mp d2
    linarith [hd1.1, hd1.2, hd2.1, hd2.2]

/-- Witness for the amended C2 at x = [1,2], y = [1,1/4], a0 = 0, b0 = 1. -/
theorem c2_witness :
    Fixed.fit [1, 2] [1, 1/4] = some 1 ∧
      round6 (Fixed.transform 1) = round6 (-Real.log 1e-4) :=
  c2_perfect_fit [1, 2] [1, 1/4] 0 1 (by norm_num)
    (by norm_num [List.pairwise_cons])
    (by intro k hk; simp [List.length_cons] at hk; interval_cases k <;> norm_num)
    (by intro k hk; simp [List.length_cons] at hk; interval_cases k <;> norm_num)
    (by norm_num)
    (by norm_num [detOf, sumU, sumU2, Finset.sum_range_succ, abs_lt])
